import Mathlib

/-!
Shallow embedding of the resilient batch downloader in
`src/process_videos.py` (repository `video_transcription`).

The downloader core consists of:
* a tracking ledger (`get_downloaded_files`, `mark_as_downloaded`),
* a size prober (`get_expected_file_size`),
* a download worker (`download_video`) that streams a response body in
  chunks, monitors throughput, detects stalls and retries with
  exponential backoff,
* a batch scheduler (`download_videos`) that filters the work list and
  paces fixed-size groups of concurrent transfers.

Machine integers are modelled as `Nat`; wall-clock timestamps are `Nat`
seconds; Python floats appearing in the source only ever feed integer
truncations or order comparisons, which are mirrored exactly
(`int(downloaded / total * 100)` becomes `downloaded * 100 / total`,
`speed < MIN` becomes `bytes < MIN * elapsed` for a positive elapsed).
File-system and network effects are made explicit: a download attempt
consumes a list of chunk events (payload length plus arrival time) and
produces the list of write actions it performed, the monitoring events it
observed and its outcome.
-/

/-- `SPEED_CHECK_INTERVAL = 60` — check speed every minute. -/
def SPEED_CHECK_INTERVAL : Nat := 60

/-- `MIN_SPEED_BYTES_PER_SECOND = 1024` — 1KB/s minimum speed. -/
def MIN_SPEED_BYTES_PER_SECOND : Nat := 1024

/-- `CHUNK_TIMEOUT = 1800` — 30 minutes per chunk. -/
def CHUNK_TIMEOUT : Nat := 1800

/-- `MAX_RETRIES = 5`. -/
def MAX_RETRIES : Nat := 5

/-- `RETRY_DELAY = 300` — 5 minutes between retries. -/
def RETRY_DELAY : Nat := 300

/-- `RATE_LIMIT_DELAY = 60` — 1 minute delay between initial requests. -/
def RATE_LIMIT_DELAY : Nat := 60

/-- `MAX_CONCURRENT_DOWNLOADS = 2`. -/
def MAX_CONCURRENT_DOWNLOADS : Nat := 2

/-- One successful chunk read inside `download_video`'s streaming loop:
`len` bytes arriving at wall-clock time `time` (seconds).  A zero-length
chunk is Python's empty read, i.e. end of stream (`if not chunk: break`). -/
structure Chunk where
  len : Nat
  time : Nat
deriving DecidableEq, Repr

/-- The mutable per-attempt state of `download_video`'s streaming loop:
`downloaded`, `last_speed_check`, `last_bytes_downloaded`, `stall_count`,
`int(last_progress)` and `last_progress_time`.  `last_progress` is a float
in the source but is only ever read through `int(...)`, so its floor is
stored. -/
structure DLState where
  downloaded : Nat
  lastSpeedCheck : Nat
  lastBytesDownloaded : Nat
  stallCount : Nat
  lastProgress : Nat
  lastProgressTime : Nat
deriving DecidableEq, Repr

/-- Initial loop state: `downloaded = 0`, both timestamps at `start_time`,
`last_bytes_downloaded = last_progress = stall_count = 0`. -/
def initState (startTime : Nat) : DLState :=
  ⟨0, startTime, 0, 0, 0, startTime⟩

/-- The two places `download_video` raises
`asyncio.TimeoutError("Download stalled multiple times")`: from the
throughput monitor (line 182) or from the stuck-progress fallback
(line 206). -/
inductive StallKind where
  | speed
  | progress
deriving DecidableEq, Repr

/-- Monitoring events instrumenting the loop, mirroring its log lines:
`speedSample low` is one execution of the per-interval throughput check
(`low` = the measured speed was below `MIN_SPEED_BYTES_PER_SECOND`);
`noProgress counted` is one arrival of the stuck-progress condition "no
integer-percent progress for more than `CHUNK_TIMEOUT`" (`counted` = the
expected size was known, nonzero and not yet reached, so `stall_count`
was incremented). -/
inductive DLEvent where
  | speedSample (low : Bool)
  | noProgress (counted : Bool)
deriving DecidableEq, Repr

/-- Python truthiness test `if expected_size and downloaded < expected_size`
on the value `file_sizes.get(filename)` (absent key → `None`, and a stored
`0` is falsy). -/
def expectedAndLt : Option Nat → Nat → Bool
  | none, _ => false
  | some e, d => decide (0 < e ∧ d < e)

/-- The throughput monitor (lines 165-187): once `SPEED_CHECK_INTERVAL`
has elapsed since `last_speed_check`, compare the bytes received in the
interval against `MIN_SPEED_BYTES_PER_SECOND × interval` (the exact
integer form of `speed < MIN_SPEED_BYTES_PER_SECOND` for a positive
interval).  A low sample increments `stall_count`; at `stall_count ≥ 3`
with the expected size known (truthy) and not yet reached, the attempt
raises the stall timeout.  A healthy sample resets `stall_count` to 0.
`downloaded` is the byte count after the current chunk was written. -/
def speedCheck (expected : Option Nat) (st : DLState) (c : Chunk) (downloaded : Nat) :
    List DLEvent × Except StallKind DLState :=
  if SPEED_CHECK_INTERVAL ≤ c.time - st.lastSpeedCheck then
    let bytesSinceLastCheck := downloaded - st.lastBytesDownloaded
    let checked : DLState :=
      ⟨downloaded, c.time, downloaded, st.stallCount + 1, st.lastProgress, st.lastProgressTime⟩
    if bytesSinceLastCheck < MIN_SPEED_BYTES_PER_SECOND * (c.time - st.lastSpeedCheck) then
      let sc := st.stallCount + 1
      if 3 ≤ sc then
        if expectedAndLt expected downloaded then
          ([DLEvent.speedSample true], Except.error StallKind.speed)
        else
          ([DLEvent.speedSample true], Except.ok checked)
      else
        ([DLEvent.speedSample true], Except.ok checked)
    else
      ([DLEvent.speedSample false], Except.ok { checked with stallCount := 0 })
  else
    ([], Except.ok { st with downloaded := downloaded })

/-- The progress logger and stuck-progress fallback (lines 189-206), run
when the response declared a positive `content-length` `total`: if the
integer percentage grew, record it with its timestamp; otherwise, if more
than `CHUNK_TIMEOUT` passed since the last percentage log and the expected
size is known (truthy) and not yet reached, increment `stall_count` and
raise the stall timeout once it reaches 3. -/
def progressCheck (total : Nat) (expected : Option Nat) (c : Chunk) (downloaded : Nat)
    (st1 : DLState) : List DLEvent × Except StallKind DLState :=
  if 0 < total then
    let prog := downloaded * 100 / total
    if st1.lastProgress < prog then
      ([], Except.ok { st1 with lastProgress := prog, lastProgressTime := c.time })
    else if CHUNK_TIMEOUT < c.time - st1.lastProgressTime then
      if expectedAndLt expected downloaded then
        let sc := st1.stallCount + 1
        if 3 ≤ sc then
          ([DLEvent.noProgress true], Except.error StallKind.progress)
        else
          ([DLEvent.noProgress true], Except.ok { st1 with stallCount := sc })
      else
        ([DLEvent.noProgress false], Except.ok st1)
    else
      ([], Except.ok st1)
  else
    ([], Except.ok st1)

/-- One iteration of `download_video`'s streaming loop body after a
non-empty chunk `c` was read and written (lines 162-206): update
`downloaded`, run the throughput monitor, then the progress check with its
stuck-progress fallback.  Returns the monitoring events of this iteration
and either the next state or the stall abort. -/
def chunkStep (total : Nat) (expected : Option Nat) (st : DLState) (c : Chunk) :
    List DLEvent × Except StallKind DLState :=
  let downloaded := st.downloaded + c.len
  match speedCheck expected st c downloaded with
  | (evs, Except.error k) => (evs, Except.error k)
  | (evs, Except.ok st1) =>
    (evs ++ (progressCheck total expected c downloaded st1).1,
      (progressCheck total expected c downloaded st1).2)

/-- Result of running the streaming loop: `writes` are the chunk lengths
written to the destination file (in order), `events` the monitoring
events, `outcome` the final loop state or the stall abort. -/
structure RunResult where
  writes : List Nat
  events : List DLEvent
  outcome : Except StallKind DLState
deriving Repr

/-- `download_video`'s streaming loop (lines 154-209) over a list of chunk
reads: an empty read breaks the loop; a non-empty chunk is written to the
file and then fed through `chunkStep`; a stall abort stops consuming
chunks. -/
def processChunks (total : Nat) (expected : Option Nat) (st : DLState) :
    List Chunk → RunResult
  | [] => ⟨[], [], Except.ok st⟩
  | c :: cs =>
    if c.len = 0 then ⟨[], [], Except.ok st⟩
    else
      match chunkStep total expected st c with
      | (evs, Except.error k) => ⟨[c.len], evs, Except.error k⟩
      | (evs, Except.ok st') =>
        let r := processChunks total expected st' cs
        ⟨c.len :: r.writes, evs ++ r.events, r.outcome⟩

/-- Did the loop finish without a stall abort? -/
def isOkE : Except StallKind DLState → Bool
  | Except.ok _ => true
  | Except.error _ => false

/-- Did the loop abort from the throughput monitor (line 182)? -/
def isSpeedE : Except StallKind DLState → Bool
  | Except.error StallKind.speed => true
  | _ => false

/-- Did the loop abort from the stuck-progress fallback (line 206)? -/
def isProgressE : Except StallKind DLState → Bool
  | Except.error StallKind.progress => true
  | _ => false

/-- Does the event list contain three consecutive low throughput samples
(consecutive in the subsequence of `speedSample` events)?  The second
argument is the number of low samples seen immediately before. -/
def hasThreeConsecLow : List DLEvent → Nat → Bool
  | [], _ => false
  | DLEvent.speedSample true :: es, k => if 2 ≤ k then true else hasThreeConsecLow es (k + 1)
  | DLEvent.speedSample false :: es, _ => hasThreeConsecLow es 0
  | DLEvent.noProgress _ :: es, k => hasThreeConsecLow es k

/-- Externally observable actions of one download attempt: writing a chunk
of `len` bytes to the destination file, or appending `filename` to the
tracking ledger (`mark_as_downloaded`). -/
inductive FileAction where
  | write (len : Nat)
  | mark (filename : String)
deriving DecidableEq, Repr

/-- What the network hands one attempt of `download_video`: either a
response (status, `content-length` header with absent modelled as the
Python default `0`, and the sequence of chunk reads), or an
`aiohttp.ClientError` / `asyncio.TimeoutError` raised while connecting or
reading (a chunk-read timeout surfaces this way as well, line 207-209). -/
inductive AttemptEnv where
  | http (status : Nat) (total : Nat) (chunks : List Chunk)
  | netErr
deriving Repr

/-- How one attempt ends: `ret b` is an ordinary `return b`, `raised` is an
`aiohttp.ClientError` / `asyncio.TimeoutError` escaping to the retry
handler (lines 224-232). -/
inductive AttemptOutcome where
  | ret (b : Bool)
  | raised
deriving DecidableEq, Repr

/-- One attempt of `download_video` (lines 145-223): on status 200 stream
the body through the chunk loop, and on a clean end of stream call
`mark_as_downloaded filename` and return `True`; a stall abort escapes as
a timeout-class exception; any other status logs and returns `False`
without writing or marking.  Returns the performed actions and the
outcome. -/
def runAttempt (filename : String) (expected : Option Nat) :
    AttemptEnv → List FileAction × AttemptOutcome
  | AttemptEnv.netErr => ([], AttemptOutcome.raised)
  | AttemptEnv.http status total chunks =>
    if status = 200 then
      let r := processChunks total expected (initState 0) chunks
      match r.outcome with
      | Except.ok _ =>
        (r.writes.map FileAction.write ++ [FileAction.mark filename], AttemptOutcome.ret true)
      | Except.error _ => (r.writes.map FileAction.write, AttemptOutcome.raised)
    else ([], AttemptOutcome.ret false)

/-- `download_video` with its retry logic (lines 129-235): each recursive
call consumes the next `AttemptEnv`.  A network error or timeout at
attempt index `retryCount` retries after `RETRY_DELAY * 2 ^ retryCount`
seconds while `retryCount < MAX_RETRIES - 1`, else returns `False`.
Returns (result, number of attempts made, backoff delays slept). -/
def download_video (filename : String) (expected : Option Nat) :
    List AttemptEnv → Nat → Bool × Nat × List Nat
  | [], _ => (false, 0, [])
  | env :: rest, retryCount =>
    match (runAttempt filename expected env).2 with
    | AttemptOutcome.ret b => (b, 1, [])
    | AttemptOutcome.raised =>
      if retryCount < MAX_RETRIES - 1 then
        let r := download_video filename expected rest (retryCount + 1)
        (r.1, r.2.1 + 1, RETRY_DELAY * 2 ^ retryCount :: r.2.2)
      else (false, 1, [])

/-- What a `HEAD` request can yield for `get_expected_file_size`: a
response carrying a status and an optional parsed `Content-Length`
header, or a raised exception. -/
inductive HeadEnv where
  | response (status : Nat) (contentLength : Option Nat)
  | netError
deriving Repr

/-- `get_expected_file_size` (lines 114-127): on status 200 read
`headers.get('Content-Length', 0)` and return it when positive; on any
other status, a missing or zero length, or an exception, return `None`. -/
def get_expected_file_size : HeadEnv → Option Nat
  | HeadEnv.netError => none
  | HeadEnv.response status contentLength =>
    if status = 200 then
      let size := contentLength.getD 0
      if 0 < size then some size else none
    else none

/-- Python `str.split(sep)` for a one-character separator, on the
character list of a string (`''.split('/') = ['']`). -/
def splitChar (c : Char) : List Char → List (List Char)
  | [] => [[]]
  | a :: l =>
    if a = c then [] :: splitChar c l
    else
      match splitChar c l with
      | [] => [[a]]
      | g :: gs => (a :: g) :: gs

/-- CPython's notion of a whitespace character (`Py_UNICODE_ISSPACE`),
the set `str.strip()` removes: ASCII 0x09-0x0D and 0x1C-0x1F and 0x20,
next-line 0x85, plus the Unicode space separators and the line and
paragraph separators. -/
def pyIsSpace (c : Char) : Bool :=
  decide (9 ≤ c.toNat ∧ c.toNat ≤ 13) || decide (28 ≤ c.toNat ∧ c.toNat ≤ 31) ||
    c.toNat == 32 || c.toNat == 133 || c.toNat == 160 || c.toNat == 5760 ||
    decide (8192 ≤ c.toNat ∧ c.toNat ≤ 8202) || c.toNat == 8232 || c.toNat == 8233 ||
    c.toNat == 8239 || c.toNat == 8287 || c.toNat == 12288

/-- Python `str.strip()`: drop leading and trailing whitespace
(`pyIsSpace` characters). -/
def pyStrip (s : String) : String :=
  ⟨((s.data.dropWhile pyIsSpace).reverse.dropWhile pyIsSpace).reverse⟩

/-- Python `str.startswith(p)`. -/
def listHasPre : List Char → List Char → Bool
  | [], _ => true
  | _ :: _, [] => false
  | a :: l, b :: m => a == b && listHasPre l m

/-- `is_url` (lines 92-94): `path.startswith(('http://', 'https://'))`. -/
def is_url (path : String) : Bool :=
  listHasPre ("http://").data path.data || listHasPre ("https://").data path.data

/-- `get_filename` (lines 96-100): the last `'/'`-separated segment of the
path.  For a URL the source computes `path.split('/')[-1]`, and for a
plain path `os.path.basename(path)`, which agrees with the last segment
for the slash-separated paths at hand. -/
def get_filename (path : String) : String :=
  ⟨(splitChar '/' path.data).getLastD []⟩

/-- A text file's content as its list of `'\n'`-separated lines. -/
abbrev FileLines := List String

/-- `get_downloaded_files` (lines 78-83): read the ledger, strip each
line, drop blanks, return the set of filenames. -/
def get_downloaded_files (ledger : FileLines) : Finset String :=
  ((ledger.map pyStrip).filter (fun l => l ≠ "")).toFinset

/-- `mark_as_downloaded` (lines 102-105): append `"\n" + filename` to the
ledger file.  The leading newline terminates the current last line, so on
the line level (for a `filename` containing no newline) this appends one
line holding `filename`. -/
def mark_as_downloaded (ledger : FileLines) (filename : String) : FileLines :=
  ledger ++ [filename]

/-- The work-list filter of `download_videos` (lines 246-252): strip and
drop blank lines, keep URL-shaped entries, and drop entries whose derived
filename is already in the completed set. -/
def filtered_video_urls (downloadList : FileLines) (ledger : FileLines) : List String :=
  let urls := (downloadList.map pyStrip).filter (fun l => l ≠ "")
  let urls := urls.filter is_url
  urls.filter (fun url => decide (get_filename url ∉ get_downloaded_files ledger))

/-- Observable scheduling actions of `download_videos`' batch loop:
launching one group of at most `MAX_CONCURRENT_DOWNLOADS` concurrent
transfers and awaiting them all, or sleeping the inter-group pacing
delay. -/
inductive SchedAction where
  | runBatch (batch : List String)
  | sleep (seconds : Nat)
deriving DecidableEq, Repr

/-- Python `range(start, stop, step)` for a positive step. -/
def pyRange (start stop step : Nat) : List Nat :=
  (List.range ((stop - start + step - 1) / step)).map (fun i => start + i * step)

/-- The batch loop of `download_videos` (lines 277-286) over the filtered
work list: `for i in range(0, len(urls), k)` process `urls[i:i+k]`, then
sleep `RATE_LIMIT_DELAY` if `i + k < len(urls)`.  The source fixes
`k = MAX_CONCURRENT_DOWNLOADS`; it is a parameter here so the group size
arithmetic can be stated for any positive limit. -/
def download_videos_schedule (k : Nat) (urls : List String) : List SchedAction :=
  (pyRange 0 urls.length k).flatMap (fun i =>
    SchedAction.runBatch ((urls.drop i).take k) ::
      (if i + k < urls.length then [SchedAction.sleep RATE_LIMIT_DELAY] else []))

/-- Is a scheduling action a pacing sleep? -/
def isSleepA : SchedAction → Bool
  | SchedAction.sleep _ => true
  | _ => false

/-- Number of inter-group pacing sleeps in a schedule. -/
def gapCount (trace : List SchedAction) : Nat :=
  trace.countP isSleepA

/-- A family of chunk arrivals that each trigger one low throughput
sample: one byte every `SPEED_CHECK_INTERVAL` seconds starting at time
`t + 60`. -/
def lowChunks : Nat → Nat → List Chunk
  | 0, _ => []
  | n + 1, t => ⟨1, t + 60⟩ :: lowChunks n (t + 60)

/-- A download of a 1 GB file (`content-length` and recorded expected size
both `10^9`): two fast 10 MB chunks, thirty healthy 200 KB chunks sixty
seconds apart (each a *healthy* throughput sample, but integer-percent
progress never moves past 2% after second 100), then three trailing
one-byte chunks.  The first two trailing chunks arrive between throughput
samples and each trips the stuck-progress fallback; the third triggers the
one and only low throughput sample, which aborts. -/
def mixedStallTrace : List Chunk :=
  ⟨10000000, 50⟩ :: ⟨10000000, 100⟩ ::
    (((List.range 30).map (fun i => ⟨200000, 160 + 60 * i⟩)) ++
      [⟨1, 1910⟩, ⟨1, 1920⟩, ⟨1, 1990⟩])

/-- A download of a 1 GB file whose expected size is recorded: fast
prefix, then a healthy 2 MB chunk arriving 1801 s after the last percent
log, followed by two one-byte chunks; the three trailing chunks each trip
the stuck-progress fallback, the third aborting. -/
def progressStallTrace : List Chunk :=
  [⟨10000000, 50⟩, ⟨10000000, 100⟩, ⟨2000000, 1901⟩, ⟨1, 1902⟩, ⟨1, 1903⟩]

/-- Same shape of stuck progress, but run with an *unknown* expected size:
a 10 MB chunk at second 50, then three one-byte chunks more than
`CHUNK_TIMEOUT` after the last percent log. -/
def unknownSizeNoProgressTrace : List Chunk :=
  [⟨10000000, 50⟩, ⟨1, 1901⟩, ⟨1, 1902⟩, ⟨1, 1903⟩]

/-! ### Helper lemmas about the streaming loop -/

/-- With an unknown expected size the throughput monitor never aborts. -/
theorem speedCheck_none_snd (st : DLState) (c : Chunk) (d : Nat) :
    isOkE (speedCheck none st c d).2 = true := by
  unfold speedCheck
  dsimp only
  simp only [expectedAndLt]
  split_ifs <;> simp_all [isOkE]

/-- With an unknown expected size the stuck-progress fallback never
aborts. -/
theorem progressCheck_none_snd (total : Nat) (c : Chunk) (d : Nat) (st1 : DLState) :
    isOkE (progressCheck total none c d st1).2 = true := by
  unfold progressCheck
  dsimp only
  simp only [expectedAndLt]
  split_ifs <;> simp_all [isOkE]

/-- With an unknown expected size neither stall site can fire, so one loop
iteration always yields a next state. -/
theorem chunkStep_none_snd (total : Nat) (st : DLState) (c : Chunk) :
    isOkE (chunkStep total none st c).2 = true := by
  unfold chunkStep
  dsimp only
  have hs := speedCheck_none_snd st c (st.downloaded + c.len)
  cases hsc : speedCheck none st c (st.downloaded + c.len) with
  | mk evs res =>
    try rw [hsc] at hs
    cases res with
    | error k => simp [isOkE] at hs
    | ok st1 =>
      try rw [hsc]
      simpa using progressCheck_none_snd total c (st.downloaded + c.len) st1

/-- With an unknown expected size the streaming loop never aborts. -/
theorem processChunks_none_isOk (total : Nat) :
    ∀ (chunks : List Chunk) (st : DLState),
      isOkE (processChunks total none st chunks).outcome = true := by
  intro chunks
  induction chunks with
  | nil => intro st; rfl
  | cons c cs ih =>
    intro st
    have hstep := chunkStep_none_snd total st c
    unfold processChunks
    by_cases h : c.len = 0
    · simp [h, isOkE]
    · rw [if_neg h]
      cases hcs : chunkStep total none st c with
      | mk evs res =>
        cases res with
        | error k => rw [hcs] at hstep; simp [isOkE] at hstep
        | ok st1 => simp [hcs, ih]

/-- A surviving throughput check leaves `downloaded` at the byte count it
was given. -/
theorem speedCheck_ok_downloaded (expected : Option Nat) (st : DLState) (c : Chunk)
    (d : Nat) (evs : List DLEvent) (st' : DLState)
    (h : speedCheck expected st c d = (evs, Except.ok st')) :
    st'.downloaded = d := by
  unfold speedCheck at h
  dsimp only at h
  repeat' (split at h)
  all_goals
    first
    | (simp only [Prod.mk.injEq, Except.ok.injEq] at h
       obtain ⟨h1, h2⟩ := h
       subst h2
       rfl)
    | simp_all

/-- A surviving progress check does not change `downloaded`. -/
theorem progressCheck_ok_downloaded (total : Nat) (expected : Option Nat) (c : Chunk)
    (d : Nat) (st1 : DLState) (st' : DLState)
    (h : (progressCheck total expected c d st1).2 = Except.ok st') :
    st'.downloaded = st1.downloaded := by
  unfold progressCheck at h
  dsimp only at h
  repeat' (split at h)
  all_goals
    first
    | (simp only [Except.ok.injEq] at h
       subst h
       rfl)
    | simp_all

/-- A surviving loop iteration adds exactly the written chunk's length to
`downloaded`. -/
theorem chunkStep_ok_downloaded (total : Nat) (expected : Option Nat) (st : DLState)
    (c : Chunk) (evs : List DLEvent) (st' : DLState)
    (h : chunkStep total expected st c = (evs, Except.ok st')) :
    st'.downloaded = st.downloaded + c.len := by
  unfold chunkStep at h
  dsimp only at h
  cases hsc : speedCheck expected st c (st.downloaded + c.len) with
  | mk evs1 res =>
    try rw [hsc] at h
    cases res with
    | error k => simp at h
    | ok st1 =>
      dsimp only at h
      have h2 : (progressCheck total expected c (st.downloaded + c.len) st1).2 =
          Except.ok st' := ((Prod.mk.injEq _ _ _ _).mp h).2
      have hd1 := speedCheck_ok_downloaded expected st c (st.downloaded + c.len) evs1 st1 hsc
      have hd2 := progressCheck_ok_downloaded total expected c (st.downloaded + c.len) st1 st' h2
      omega

/-- A run of the streaming loop over non-empty chunks that ends without a
stall abort writes exactly the chunks, in order, and accounts every
written byte in `downloaded`. -/
theorem processChunks_ok_spec (total : Nat) (expected : Option Nat) :
    ∀ (chunks : List Chunk) (st st' : DLState),
      (∀ c ∈ chunks, c.len ≠ 0) →
      (processChunks total expected st chunks).outcome = Except.ok st' →
      (processChunks total expected st chunks).writes = chunks.map Chunk.len ∧
        st'.downloaded = st.downloaded + (chunks.map Chunk.len).sum := by
  intro chunks
  induction chunks with
  | nil =>
    intro st st' _ hok
    simp only [processChunks, Except.ok.injEq] at hok
    simp [processChunks, ← hok]
  | cons c cs ih =>
    intro st st' hnz hok
    have hc : c.len ≠ 0 := hnz c (by simp)
    unfold processChunks at hok ⊢
    rw [if_neg hc] at hok ⊢
    cases hstep : chunkStep total expected st c with
    | mk evs res =>
      cases res with
      | error k => try rw [hstep] at hok
                   simp at hok
      | ok st1 =>
        try rw [hstep] at hok
        dsimp only at hok ⊢
        obtain ⟨hw, hd⟩ := ih st1 st' (fun x hx => hnz x (by simp [hx])) hok
        have hd1 := chunkStep_ok_downloaded total expected st c evs st1 hstep
        refine ⟨by simp [hw], ?_⟩
        rw [hd, hd1]
        simp only [List.map_cons, List.sum_cons]
        omega

/-- Exhaustive case analysis of one throughput check: no sample taken, a
healthy sample resetting the counter, a low sample incrementing it (which
cannot abort), or the abort itself (counter reaching 3 with the expected
size known, truthy and unreached). -/
theorem speedCheck_cases (expected : Option Nat) (st : DLState) (c : Chunk) (d : Nat) :
    (∃ st', speedCheck expected st c d = ([], Except.ok st') ∧
        st'.stallCount = st.stallCount) ∨
    (∃ st', speedCheck expected st c d = ([DLEvent.speedSample false], Except.ok st') ∧
        st'.stallCount = 0) ∨
    (∃ st', speedCheck expected st c d = ([DLEvent.speedSample true], Except.ok st') ∧
        st'.stallCount = st.stallCount + 1 ∧
        ¬(2 ≤ st.stallCount ∧ expectedAndLt expected d = true)) ∨
    (speedCheck expected st c d = ([DLEvent.speedSample true], Except.error StallKind.speed) ∧
        2 ≤ st.stallCount ∧ expectedAndLt expected d = true) := by
  unfold speedCheck
  dsimp only
  split_ifs with h1 h2 h3 h4
  · exact Or.inr (Or.inr (Or.inr ⟨rfl, by omega, h4⟩))
  · exact Or.inr (Or.inr (Or.inl ⟨_, rfl, rfl, fun hc => h4 hc.2⟩))
  · exact Or.inr (Or.inr (Or.inl ⟨_, rfl, rfl, fun hc => by omega⟩))
  · exact Or.inr (Or.inl ⟨_, rfl, rfl⟩)
  · exact Or.inl ⟨_, rfl, rfl⟩

/-- Exhaustive case analysis of one progress check: either it emits no
event and leaves `stall_count` unchanged, or it emits a `noProgress`
event. -/
theorem progressCheck_cases (total : Nat) (expected : Option Nat) (c : Chunk) (d : Nat)
    (st1 : DLState) :
    (∃ st', progressCheck total expected c d st1 = ([], Except.ok st') ∧
        st'.stallCount = st1.stallCount) ∨
    (∃ evs r, progressCheck total expected c d st1 = (evs, r) ∧
        ∃ b, DLEvent.noProgress b ∈ evs) := by
  unfold progressCheck
  dsimp only
  split_ifs with h1 h2 h3 h4 h5
  · exact Or.inl ⟨_, rfl, rfl⟩
  · exact Or.inr ⟨_, _, rfl, true, by simp⟩
  · exact Or.inr ⟨_, _, rfl, true, by simp⟩
  · exact Or.inr ⟨_, _, rfl, false, by simp⟩
  · exact Or.inl ⟨_, rfl, rfl⟩
  · exact Or.inl ⟨_, rfl, rfl⟩

/-- Exhaustive case analysis of one loop iteration on the monitoring
events it emits and the fate of `stall_count`: nothing observed, a healthy
sample (counter reset), a low sample (counter incremented, no abort
possible), the throughput abort (counter already at 2, expected size
truthy and unreached), or an iteration involving a stuck-progress
signal. -/
theorem chunkStep_cases (total : Nat) (expected : Option Nat) (st : DLState) (c : Chunk) :
    (∃ st', chunkStep total expected st c = ([], Except.ok st') ∧
        st'.stallCount = st.stallCount) ∨
    (∃ st', chunkStep total expected st c = ([DLEvent.speedSample false], Except.ok st') ∧
        st'.stallCount = 0) ∨
    (∃ st', chunkStep total expected st c = ([DLEvent.speedSample true], Except.ok st') ∧
        st'.stallCount = st.stallCount + 1 ∧
        ¬(2 ≤ st.stallCount ∧ expectedAndLt expected (st.downloaded + c.len) = true)) ∨
    (chunkStep total expected st c =
        ([DLEvent.speedSample true], Except.error StallKind.speed) ∧
        2 ≤ st.stallCount ∧ expectedAndLt expected (st.downloaded + c.len) = true) ∨
    (∃ evs r, chunkStep total expected st c = (evs, r) ∧
        ∃ b, DLEvent.noProgress b ∈ evs) := by
  unfold chunkStep
  dsimp only
  rcases speedCheck_cases expected st c (st.downloaded + c.len) with
    ⟨st1, hs, hsc⟩ | ⟨st1, hs, hsc⟩ | ⟨st1, hs, hsc, hnc⟩ | ⟨hs, h2, hexp⟩
  · rw [hs]
    dsimp only
    rcases progressCheck_cases total expected c (st.downloaded + c.len) st1 with
      ⟨st2, hp, hpc⟩ | ⟨evs, r, hp, b, hb⟩
    · exact Or.inl ⟨st2, by rw [hp]; rfl, by omega⟩
    · exact Or.inr (Or.inr (Or.inr (Or.inr ⟨_, _, by rw [hp], b, by simp [hb]⟩)))
  · rw [hs]
    dsimp only
    rcases progressCheck_cases total expected c (st.downloaded + c.len) st1 with
      ⟨st2, hp, hpc⟩ | ⟨evs, r, hp, b, hb⟩
    · exact Or.inr (Or.inl ⟨st2, by rw [hp]; rfl, by omega⟩)
    · exact Or.inr (Or.inr (Or.inr (Or.inr ⟨_, _, by rw [hp], b, by simp [hb]⟩)))
  · rw [hs]
    dsimp only
    rcases progressCheck_cases total expected c (st.downloaded + c.len) st1 with
      ⟨st2, hp, hpc⟩ | ⟨evs, r, hp, b, hb⟩
    · exact Or.inr (Or.inr (Or.inl ⟨st2, by rw [hp]; rfl, by omega, hnc⟩))
    · exact Or.inr (Or.inr (Or.inr (Or.inr ⟨_, _, by rw [hp], b, by simp [hb]⟩)))
  · rw [hs]
    exact Or.inr (Or.inr (Or.inr (Or.inl ⟨rfl, h2, hexp⟩)))

/-- A throughput check can only abort when the expected size is known,
truthy and unreached. -/
theorem speedCheck_error_expected (expected : Option Nat) (st : DLState) (c : Chunk)
    (d : Nat) (evs : List DLEvent) (k : StallKind)
    (h : speedCheck expected st c d = (evs, Except.error k)) :
    expectedAndLt expected d = true := by
  unfold speedCheck at h
  dsimp only at h
  repeat' (split at h)
  all_goals simp_all

/-- A progress check can only abort when the expected size is known,
truthy and unreached. -/
theorem progressCheck_error_expected (total : Nat) (expected : Option Nat) (c : Chunk)
    (d : Nat) (st1 : DLState) (k : StallKind)
    (h : (progressCheck total expected c d st1).2 = Except.error k) :
    expectedAndLt expected d = true := by
  unfold progressCheck at h
  dsimp only at h
  repeat' (split at h)
  all_goals simp_all

/-- A loop iteration can only abort when the expected size is known,
truthy and still above the bytes written so far (current chunk
included). -/
theorem chunkStep_error_expected (total : Nat) (expected : Option Nat) (st : DLState)
    (c : Chunk) (evs : List DLEvent) (k : StallKind)
    (h : chunkStep total expected st c = (evs, Except.error k)) :
    expectedAndLt expected (st.downloaded + c.len) = true := by
  unfold chunkStep at h
  dsimp only at h
  cases hsc : speedCheck expected st c (st.downloaded + c.len) with
  | mk evs1 res =>
    try rw [hsc] at h
    cases res with
    | error k1 =>
      exact speedCheck_error_expected expected st c (st.downloaded + c.len) evs1 k1 hsc
    | ok st1 =>
      dsimp only at h
      have h2 : (progressCheck total expected c (st.downloaded + c.len) st1).2 =
          Except.error k := ((Prod.mk.injEq _ _ _ _).mp h).2
      exact progressCheck_error_expected total expected c (st.downloaded + c.len) st1 k h2

/-- Any stall abort of the streaming loop requires the expected size to be
known and positive, with the bytes written up to and including the
aborting chunk still below it. -/
theorem processChunks_error_expected (total : Nat) (expected : Option Nat) (st : DLState)
    (chunks : List Chunk) (k : StallKind)
    (h : (processChunks total expected st chunks).outcome = Except.error k) :
    ∃ e, expected = some e ∧ 0 < e ∧
      st.downloaded + (processChunks total expected st chunks).writes.sum < e := by
  induction chunks generalizing st with
  | nil => simp [processChunks] at h
  | cons c cs ih =>
    by_cases hz : c.len = 0
    · unfold processChunks at h
      rw [if_pos hz] at h
      simp at h
    · unfold processChunks at h ⊢
      rw [if_neg hz] at h ⊢
      cases hstep : chunkStep total expected st c with
      | mk evs res =>
        try rw [hstep] at h
        cases res with
        | error k1 =>
          try rw [hstep]
          dsimp only at h ⊢
          have hexp := chunkStep_error_expected total expected st c evs k1 hstep
          cases expected with
          | none => simp [expectedAndLt] at hexp
          | some e =>
            simp only [expectedAndLt, decide_eq_true_eq] at hexp
            exact ⟨e, rfl, hexp.1, by simp; omega⟩
        | ok st1 =>
          try rw [hstep]
          dsimp only at h ⊢
          obtain ⟨e, he, hpos, hlt⟩ := ih st1 h
          have hd := chunkStep_ok_downloaded total expected st c evs st1 hstep
          exact ⟨e, he, hpos, by simp [List.sum_cons]; omega⟩

/-- The throughput stall policy in isolation: for a run with the expected
size `e` known, no stuck-progress signal, and the transferred bytes
staying below `e`, the loop aborts at the throughput monitor exactly when
its sample log reaches three consecutive low samples (counting from the
attempt's current `stall_count`). -/
theorem speed_iff_three_consec (total e : Nat) (chunks : List Chunk) (st : DLState)
    (hne : ∀ b : Bool, DLEvent.noProgress b ∉ (processChunks total (some e) st chunks).events)
    (hbound : st.downloaded + (chunks.map Chunk.len).sum < e) :
    isSpeedE (processChunks total (some e) st chunks).outcome =
      hasThreeConsecLow (processChunks total (some e) st chunks).events st.stallCount := by
  induction chunks generalizing st with
  | nil => rfl
  | cons c cs ih =>
    by_cases hz : c.len = 0
    · unfold processChunks
      rw [if_pos hz]
      rfl
    · have hexp : expectedAndLt (some e) (st.downloaded + c.len) = true := by
        simp only [expectedAndLt, decide_eq_true_eq]
        simp only [List.map_cons, List.sum_cons] at hbound
        omega
      unfold processChunks at hne ⊢
      rw [if_neg hz] at hne ⊢
      rcases chunkStep_cases total (some e) st c with
        ⟨st1, hs, hsc⟩ | ⟨st1, hs, hsc⟩ | ⟨st1, hs, hsc, hnc⟩ | ⟨hs, h2, hx⟩ |
        ⟨evs, r, hs, b, hb⟩
      · rw [hs] at hne ⊢
        dsimp only at hne ⊢
        have hd := chunkStep_ok_downloaded total (some e) st c [] st1 hs
        have hbound' : st1.downloaded + (cs.map Chunk.len).sum < e := by
          simp only [List.map_cons, List.sum_cons] at hbound
          omega
        have hne' : ∀ b, DLEvent.noProgress b ∉
            (processChunks total (some e) st1 cs).events :=
          fun b hmem => hne b (List.mem_append_right _ hmem)
        rw [List.nil_append, ← hsc]
        exact ih st1 hne' hbound'
      · rw [hs] at hne ⊢
        dsimp only at hne ⊢
        have hd := chunkStep_ok_downloaded total (some e) st c [DLEvent.speedSample false]
          st1 hs
        have hbound' : st1.downloaded + (cs.map Chunk.len).sum < e := by
          simp only [List.map_cons, List.sum_cons] at hbound
          omega
        have hne' : ∀ b, DLEvent.noProgress b ∉
            (processChunks total (some e) st1 cs).events :=
          fun b hmem => hne b (List.mem_append_right _ hmem)
        have hih := ih st1 hne' hbound'
        rw [hsc] at hih
        simpa [hasThreeConsecLow] using hih
      · rw [hs] at hne ⊢
        dsimp only at hne ⊢
        have hd := chunkStep_ok_downloaded total (some e) st c [DLEvent.speedSample true]
          st1 hs
        have hbound' : st1.downloaded + (cs.map Chunk.len).sum < e := by
          simp only [List.map_cons, List.sum_cons] at hbound
          omega
        have hne' : ∀ b, DLEvent.noProgress b ∉
            (processChunks total (some e) st1 cs).events :=
          fun b hmem => hne b (List.mem_append_right _ hmem)
        have hk2 : ¬ 2 ≤ st.stallCount := fun hh => hnc ⟨hh, hexp⟩
        have hih := ih st1 hne' hbound'
        rw [hsc] at hih
        simp only [List.cons_append, List.nil_append, hasThreeConsecLow]
        rw [if_neg hk2]
        exact hih
      · rw [hs]
        dsimp only
        simp [hasThreeConsecLow, isSpeedE, h2]
      · cases r with
        | error k1 =>
          rw [hs] at hne
          dsimp only at hne
          exact absurd hb (hne b)
        | ok st1 =>
          rw [hs] at hne
          dsimp only at hne
          exact absurd (List.mem_append_left _ hb) (hne b)

/-! ### Claim theorems -/

/-- C1: for every download of a chunk sequence totaling `N` bytes that
completes with no errors, the attempt writes exactly the chunks, in
order, the final byte count (the output file's size) equals `N`, and the
filename is appended to the tracking ledger exactly after the last chunk
is written — in the attempt's action trace `mark_as_downloaded` is the
single action following all writes, so the filename reaches the ledger
only after its bytes are fully written. -/
theorem download_success_writes_then_marks (total : Nat) (expected : Option Nat)
    (chunks : List Chunk) (fn : String) (st' : DLState)
    (hnz : ∀ c ∈ chunks, c.len ≠ 0)
    (hok : (processChunks total expected (initState 0) chunks).outcome = Except.ok st') :
    runAttempt fn expected (AttemptEnv.http 200 total chunks) =
      (chunks.map (fun c => FileAction.write c.len) ++ [FileAction.mark fn],
        AttemptOutcome.ret true) ∧
    st'.downloaded = (chunks.map Chunk.len).sum := by
  obtain ⟨hw, hd⟩ := processChunks_ok_spec total expected chunks (initState 0) st' hnz hok
  constructor
  · simp only [runAttempt]
    rw [if_pos trivial, hok]
    dsimp only
    rw [hw, List.map_map]
    rfl
  · simpa [initState] using hd

/-- Witness for C1 at a concrete two-chunk download: 5 + 7 bytes arrive,
the attempt writes 5 then 7 then marks, and the final size is 12. -/
theorem download_success_writes_then_marks_witness :
    runAttempt ("v.mp4") none (AttemptEnv.http 200 0 [⟨5, 1⟩, ⟨7, 2⟩]) =
      ([FileAction.write 5, FileAction.write 7, FileAction.mark ("v.mp4")],
        AttemptOutcome.ret true) ∧
    (⟨12, 0, 0, 0, 0, 0⟩ : DLState).downloaded = ([⟨5, 1⟩, ⟨7, 2⟩].map Chunk.len).sum := by
  have h := download_success_writes_then_marks 0 none [⟨5, 1⟩, ⟨7, 2⟩] ("v.mp4")
    ⟨12, 0, 0, 0, 0, 0⟩ (by decide) (by rfl)
  simpa using h

/-- C2 counterexample: on `mixedStallTrace` (expected size known and not
reached throughout) the attempt aborts *at the throughput monitor*, yet
the event log contains no three consecutive low throughput samples — the
two stuck-progress signals pushed the shared `stall_count` to 2, so a
single low sample sufficed.  This refutes the claimed "only if three
consecutive per-interval throughput samples fall below the threshold". -/
theorem speed_abort_without_three_low_samples :
    isSpeedE (processChunks 1000000000 (some 1000000000) (initState 0) mixedStallTrace).outcome
      = true ∧
    hasThreeConsecLow
        (processChunks 1000000000 (some 1000000000) (initState 0) mixedStallTrace).events 0
      = false := by decide

/-- C2 as amended: (1) universally, a stall abort requires the expected
size to be known and positive with the bytes written up to the abort
still below it; (2) when the expected size is unknown, no sequence of
low-throughput samples (indeed no run at all) aborts the attempt;
(3) universally, in a run with no stuck-progress signal whose transferred
bytes stay below the known expected size, a throughput-based abort occurs
exactly when the monitor's log reaches three consecutive low samples
(counting from the attempt's current `stall_count`; from a fresh attempt,
exactly at the third consecutive low sample).  Stuck-progress signals
feed the same counter, so with them an abort can need fewer low samples,
as the counterexample shows. -/
theorem speed_stall_abort_amended :
    (∀ (total : Nat) (expected : Option Nat) (st : DLState) (chunks : List Chunk)
        (k : StallKind),
        (processChunks total expected st chunks).outcome = Except.error k →
        ∃ e, expected = some e ∧ 0 < e ∧
          st.downloaded + (processChunks total expected st chunks).writes.sum < e) ∧
    (∀ (total : Nat) (chunks : List Chunk) (st : DLState),
        isOkE (processChunks total none st chunks).outcome = true) ∧
    (∀ (total e : Nat) (chunks : List Chunk) (st : DLState),
        (∀ b : Bool,
            DLEvent.noProgress b ∉ (processChunks total (some e) st chunks).events) →
        st.downloaded + (chunks.map Chunk.len).sum < e →
        isSpeedE (processChunks total (some e) st chunks).outcome =
          hasThreeConsecLow (processChunks total (some e) st chunks).events
            st.stallCount) :=
  ⟨fun total expected st chunks k h =>
      processChunks_error_expected total expected st chunks k h,
    fun total chunks st => processChunks_none_isOk total chunks st,
    fun total e chunks st hne hbound =>
      speed_iff_three_consec total e chunks st hne hbound⟩

/-- Witness for C2's amended theorem on the concrete all-low family
`lowChunks 3 0` with expected size 10: the abort implies the size was
known, positive and unreached, and the throughput-abort/three-consecutive
equivalence holds (both sides true). -/
theorem speed_stall_abort_amended_witness :
    (∃ e, (some 10 : Option Nat) = some e ∧ 0 < e ∧
        (initState 0).downloaded +
          (processChunks 0 (some 10) (initState 0) (lowChunks 3 0)).writes.sum < e) ∧
    isSpeedE (processChunks 0 (some 10) (initState 0) (lowChunks 3 0)).outcome =
      hasThreeConsecLow (processChunks 0 (some 10) (initState 0) (lowChunks 3 0)).events
        (initState 0).stallCount :=
  ⟨speed_stall_abort_amended.1 0 (some 10) (initState 0) (lowChunks 3 0) StallKind.speed
      (by rfl),
    speed_stall_abort_amended.2.2 0 10 (lowChunks 3 0) (initState 0) (by decide)
      (by decide)⟩

/-- C7 counterexample: on `unknownSizeNoProgressTrace` the stuck-progress
condition "no integer-percent progress for more than `CHUNK_TIMEOUT`"
holds at three consecutive chunks (the three `noProgress` events), but
because the expected size is unknown none of them increments
`stall_count` (all are flagged uncounted, the final state still has
`stall_count = 0`) and the attempt does not abort — refuting the claim
that the counter is incremented *whenever* the condition holds. -/
theorem no_progress_unknown_size_not_counted :
    (processChunks 1000000000 none (initState 0) unknownSizeNoProgressTrace).events =
      [DLEvent.speedSample false, DLEvent.noProgress false, DLEvent.noProgress false,
       DLEvent.noProgress false] ∧
    (processChunks 1000000000 none (initState 0) unknownSizeNoProgressTrace).outcome =
      Except.ok ⟨10000003, 1901, 10000001, 0, 1, 50⟩ :=
  ⟨by decide, by rfl⟩

/-- C7 as amended: universally over all loop states and inputs, when a
chunk arrives with no integer-percent progress for longer than
`CHUNK_TIMEOUT` (and a positive declared `content-length`), the fallback
consults the expected size: (1) if it is known (truthy) and the bytes
downloaded are below it, the shared `stall_count` is incremented and the
attempt aborts with the timeout-class stall failure exactly when the
counter reaches 3; (2) if that truthiness test fails — in particular when
the expected size is unknown — the signal is ignored: no increment and no
abort.  (3) End to end, on `progressStallTrace` with any recorded size
above the bytes received, the three stuck-progress signals are all
counted and the third aborts the attempt at the progress site. -/
theorem progress_stall_amended :
    (∀ (total : Nat) (expected : Option Nat) (c : Chunk) (d : Nat) (st1 : DLState),
        0 < total → ¬ st1.lastProgress < d * 100 / total →
        CHUNK_TIMEOUT < c.time - st1.lastProgressTime →
        expectedAndLt expected d = true →
        progressCheck total expected c d st1 =
          if 3 ≤ st1.stallCount + 1 then
            ([DLEvent.noProgress true], Except.error StallKind.progress)
          else
            ([DLEvent.noProgress true],
              Except.ok { st1 with stallCount := st1.stallCount + 1 })) ∧
    (∀ (total : Nat) (expected : Option Nat) (c : Chunk) (d : Nat) (st1 : DLState),
        expectedAndLt expected d = false →
        ∃ st', (progressCheck total expected c d st1).2 = Except.ok st' ∧
          st'.stallCount = st1.stallCount) ∧
    (∀ (e : Nat), 22000002 < e →
        processChunks 1000000000 (some e) (initState 0) progressStallTrace =
          ⟨[10000000, 10000000, 2000000, 1, 1],
            [DLEvent.speedSample false, DLEvent.speedSample false, DLEvent.noProgress true,
             DLEvent.noProgress true, DLEvent.noProgress true],
            Except.error StallKind.progress⟩) := by
  refine ⟨?_, ?_, ?_⟩
  · intro total expected c d st1 htot hnp hto hexp
    unfold progressCheck
    dsimp only
    rw [if_pos htot, if_neg hnp, if_pos hto, if_pos hexp]
  · intro total expected c d st1 hexp
    unfold progressCheck
    dsimp only
    split_ifs <;> first
      | exact ⟨_, rfl, rfl⟩
      | simp_all
  · intro e he
    have h0 : 0 < e := by omega
    have h1 : 22000000 < e := by omega
    have h2 : 22000001 < e := by omega
    simp [progressStallTrace, processChunks, chunkStep, speedCheck, progressCheck,
      expectedAndLt, initState, SPEED_CHECK_INTERVAL, MIN_SPEED_BYTES_PER_SECOND,
      CHUNK_TIMEOUT, h0, h1, h2, he]

/-- Witness for C7's amended theorem: (1) a counted stuck-progress signal
at `stall_count = 2` aborts; (2) the same signal with an unknown expected
size leaves the state untouched; (3) the end-to-end trace at
`e = 10^9`. -/
theorem progress_stall_amended_witness :
    progressCheck 100 (some 50) ⟨1, 2000⟩ 10 ⟨10, 0, 0, 2, 10, 0⟩ =
      ([DLEvent.noProgress true], Except.error StallKind.progress) ∧
    (∃ st', (progressCheck 100 none ⟨1, 2000⟩ 10 ⟨10, 0, 0, 2, 10, 0⟩).2 = Except.ok st' ∧
        st'.stallCount = (⟨10, 0, 0, 2, 10, 0⟩ : DLState).stallCount) ∧
    processChunks 1000000000 (some 1000000000) (initState 0) progressStallTrace =
      ⟨[10000000, 10000000, 2000000, 1, 1],
        [DLEvent.speedSample false, DLEvent.speedSample false, DLEvent.noProgress true,
         DLEvent.noProgress true, DLEvent.noProgress true],
        Except.error StallKind.progress⟩ := by
  refine ⟨?_, ?_, ?_⟩
  · simpa using progress_stall_amended.1 100 (some 50) ⟨1, 2000⟩ 10 ⟨10, 0, 0, 2, 10, 0⟩
      (by decide) (by decide) (by decide) (by decide)
  · exact progress_stall_amended.2.1 100 none ⟨1, 2000⟩ 10 ⟨10, 0, 0, 2, 10, 0⟩ (by decide)
  · exact progress_stall_amended.2.2 1000000000 (by omega)

/-- Shifting the exponent across a cons of backoff delays. -/
theorem range_pow_shift (D rc j : Nat) :
    (List.range (j + 1)).map (fun k => D * 2 ^ (rc + k)) =
      D * 2 ^ rc :: (List.range j).map (fun k => D * 2 ^ (rc + 1 + k)) := by
  rw [List.range_succ_eq_map, List.map_cons, List.map_map]
  refine congrArg₂ _ (by simp) ?_
  apply List.map_congr_left
  intro k _
  simp only [Function.comp]
  congr 1
  congr 1
  omega

/-- Unrolling `j` consecutive failing attempts starting at retry index
`rc` (with `rc + j` still below the cap): each failure sleeps
`RETRY_DELAY * 2 ^ index` and recurses with the next index. -/
theorem download_video_netErr_steps (fn : String) (expected : Option Nat) :
    ∀ (j rc : Nat), rc + j ≤ 4 → ∀ (envs : List AttemptEnv),
      download_video fn expected (List.replicate j AttemptEnv.netErr ++ envs) rc =
        ((download_video fn expected envs (rc + j)).1,
          (download_video fn expected envs (rc + j)).2.1 + j,
          (List.range j).map (fun k => RETRY_DELAY * 2 ^ (rc + k)) ++
            (download_video fn expected envs (rc + j)).2.2) := by
  intro j
  induction j with
  | zero => intro rc h envs; simp
  | succ j ih =>
    intro rc h envs
    have hrc : rc < MAX_RETRIES - 1 := by simp only [MAX_RETRIES]; omega
    rw [List.replicate_succ, List.cons_append]
    have hstep :
        download_video fn expected
            (AttemptEnv.netErr :: (List.replicate j AttemptEnv.netErr ++ envs)) rc =
          ((download_video fn expected (List.replicate j AttemptEnv.netErr ++ envs) (rc + 1)).1,
            (download_video fn expected (List.replicate j AttemptEnv.netErr ++ envs) (rc + 1)).2.1
              + 1,
            RETRY_DELAY * 2 ^ rc ::
              (download_video fn expected (List.replicate j AttemptEnv.netErr ++ envs)
                  (rc + 1)).2.2) := by
      simp [download_video, runAttempt, hrc]
    rw [hstep, ih (rc + 1) (by omega) envs]
    have hidx : rc + 1 + j = rc + (j + 1) := by omega
    rw [range_pow_shift RETRY_DELAY rc j, hidx]
    simp only [List.cons_append]
    refine congrArg₂ _ rfl (congrArg₂ _ (by omega) rfl)

/-- C3: network errors and timeouts back off exponentially — the delay
slept before attempt index `k + 1` is `RETRY_DELAY * 2 ^ k` — at most
`MAX_RETRIES = 5` attempts (indices 0..4) are made for one file, and
exhausting the retries returns `false` (an ordinary return, not a raised
exception).  First conjunct: five straight network failures give exactly
5 attempts, delays `[300, 600, 1200, 2400]` and result `false`, whatever
the network would do afterwards.  Second conjunct: `j ≤ 4` failures
followed by a success give `j + 1` attempts with delays
`RETRY_DELAY * 2 ^ 0 .. RETRY_DELAY * 2 ^ (j - 1)`. -/
theorem retry_backoff_and_attempt_cap (fn : String) (expected : Option Nat) :
    (∀ rest : List AttemptEnv,
        download_video fn expected (List.replicate MAX_RETRIES AttemptEnv.netErr ++ rest) 0 =
          (false, MAX_RETRIES,
            [RETRY_DELAY, RETRY_DELAY * 2, RETRY_DELAY * 4, RETRY_DELAY * 8])) ∧
    (∀ (j : Nat), j ≤ 4 → ∀ (rest : List AttemptEnv) (total : Nat),
        download_video fn expected
            (List.replicate j AttemptEnv.netErr ++ (AttemptEnv.http 200 total [] :: rest)) 0 =
          (true, j + 1, (List.range j).map (fun k => RETRY_DELAY * 2 ^ k))) := by
  constructor
  · intro rest
    have h5 : List.replicate MAX_RETRIES AttemptEnv.netErr ++ rest =
        List.replicate 4 AttemptEnv.netErr ++ (AttemptEnv.netErr :: rest) := by
      simp [MAX_RETRIES, List.replicate_succ]
    rw [h5, download_video_netErr_steps fn expected 4 0 (by omega) (AttemptEnv.netErr :: rest)]
    have hinner : download_video fn expected (AttemptEnv.netErr :: rest) (0 + 4) =
        (false, 1, []) := by
      simp [download_video, runAttempt, MAX_RETRIES]
    rw [hinner]
    simp [MAX_RETRIES, RETRY_DELAY]
    decide
  · intro j hj rest total
    rw [download_video_netErr_steps fn expected j 0 (by omega)
      (AttemptEnv.http 200 total [] :: rest)]
    have hinner : download_video fn expected (AttemptEnv.http 200 total [] :: rest) (0 + j) =
        (true, 1, []) := by
      simp [download_video, runAttempt, processChunks]
    rw [hinner]
    simp [Nat.add_comm]

/-- Witness for C3 at two network failures followed by a success: three
attempts, delays 300 s then 600 s, result `true`. -/
theorem retry_backoff_and_attempt_cap_witness :
    download_video ("f.mp4") none
        [AttemptEnv.netErr, AttemptEnv.netErr, AttemptEnv.http 200 0 []] 0 =
      (true, 3, [300, 600]) := by
  have h := (retry_backoff_and_attempt_cap ("f.mp4") none).2 2 (by omega) [] 0
  simpa using h

/-- C4: a non-2xx HTTP response makes `download_video` return `false`
immediately — one attempt, no backoff sleeps — while a connection-level
network error or timeout takes the retry path: one `RETRY_DELAY` backoff
sleep and a recursive attempt at retry index 1. -/
theorem non2xx_immediate_failure_neterr_retries (fn : String) (expected : Option Nat) :
    (∀ (status total : Nat) (chunks : List Chunk) (rest : List AttemptEnv),
        ¬(200 ≤ status ∧ status < 300) →
        download_video fn expected (AttemptEnv.http status total chunks :: rest) 0 =
          (false, 1, [])) ∧
    (∀ rest : List AttemptEnv,
        download_video fn expected (AttemptEnv.netErr :: rest) 0 =
          ((download_video fn expected rest 1).1,
            (download_video fn expected rest 1).2.1 + 1,
            RETRY_DELAY :: (download_video fn expected rest 1).2.2)) := by
  constructor
  · intro status total chunks rest h
    have hs : status ≠ 200 := by omega
    simp [download_video, runAttempt, hs]
  · intro rest
    simp [download_video, runAttempt, MAX_RETRIES]

/-- Witness for C4: a 404 response fails in one attempt with no sleeps; a
network error on a singleton environment list retries (sleeping 300 s)
and then runs out of environments. -/
theorem non2xx_immediate_failure_neterr_retries_witness :
    download_video ("f.mp4") none [AttemptEnv.http 404 0 []] 0 = (false, 1, []) ∧
    download_video ("f.mp4") none [AttemptEnv.netErr] 0 = (false, 1, [300]) := by
  constructor
  · exact (non2xx_immediate_failure_neterr_retries ("f.mp4") none).1 404 0 [] [] (by omega)
  · have h := (non2xx_immediate_failure_neterr_retries ("f.mp4") none).2 []
    simpa using h

/-- C10: `download_video` treats only status exactly 200 as success: for
every other status — including 2xx codes such as 201 or 206 — the attempt
performs no file writes, no ledger mark (empty action list), returns
`false`, and does not take the retry path (one attempt, no sleeps). -/
theorem only_status_200_succeeds (fn : String) (expected : Option Nat)
    (status total : Nat) (chunks : List Chunk) (rest : List AttemptEnv)
    (h : status ≠ 200) :
    runAttempt fn expected (AttemptEnv.http status total chunks) =
      ([], AttemptOutcome.ret false) ∧
    download_video fn expected (AttemptEnv.http status total chunks :: rest) 0 =
      (false, 1, []) := by
  constructor
  · simp [runAttempt, h]
  · simp [download_video, runAttempt, h]

/-- Witness for C10 at status 206 (Partial Content, a 2xx code): no
actions, `false`, one attempt, no sleeps. -/
theorem only_status_200_succeeds_witness :
    runAttempt ("f.mp4") none (AttemptEnv.http 206 0 [⟨5, 1⟩]) =
      ([], AttemptOutcome.ret false) ∧
    download_video ("f.mp4") none [AttemptEnv.http 206 0 [⟨5, 1⟩]] 0 = (false, 1, []) :=
  only_status_200_succeeds ("f.mp4") none 206 0 [⟨5, 1⟩] [] (by omega)

/-- C5: every entry of the filtered work list is URL-shaped and its
derived filename differs from every completed filename read from the
ledger at batch start — so a file already in the ledger is never handed
to a download worker; only the filtered entries are (by construction of
the batch loop, which iterates over `filtered_video_urls`). -/
theorem completed_files_not_reattempted (downloadList ledger : List String) (url : String)
    (h : url ∈ filtered_video_urls downloadList ledger) :
    is_url url = true ∧
    ∀ f ∈ get_downloaded_files ledger, get_filename url ≠ f := by
  unfold filtered_video_urls at h
  dsimp only at h
  rw [List.mem_filter] at h
  obtain ⟨h1, h2⟩ := h
  rw [List.mem_filter] at h1
  refine ⟨h1.2, ?_⟩
  intro f hf heq
  rw [decide_eq_true_eq] at h2
  exact h2 (by rwa [heq])

/-- Witness for C5: with ledger lines `["c.mp4", ""]` the filtered list
keeps `"http://a/b.mp4"`, which is URL-shaped and whose filename misses
the completed set. -/
theorem completed_files_not_reattempted_witness :
    is_url ("http://a/b.mp4") = true ∧
    ∀ f ∈ get_downloaded_files ["c.mp4", ""], get_filename ("http://a/b.mp4") ≠ f :=
  completed_files_not_reattempted [" http://a/b.mp4 ", "note", "http://a/c.mp4"]
    ["c.mp4", ""] ("http://a/b.mp4") (by decide)

/-- C8 counterexample: the filename `" a "` is non-empty after stripping
whitespace and contains no newline, yet after `mark_as_downloaded` the
completed set returned by `get_downloaded_files` does *not* contain
`" a "` — it contains the stripped `"a"`, because reading strips each
ledger line while marking wrote the raw name.  This refutes the claim for
filenames with surrounding whitespace. -/
theorem padded_filename_roundtrip_fails :
    pyStrip (" a ") ≠ "" ∧
    (" a ").data.contains (Char.ofNat 10) = false ∧
    (" a ") ∉ get_downloaded_files (mark_as_downloaded [] (" a ")) := by decide

/-- C8 as amended: for every filename that is non-empty, *unchanged by
whitespace stripping*, and contains no newline, marking it and reading
the ledger back yields a set containing that filename, and marking the
same filename again is safe: the returned completed set is unchanged (as
a set it holds the filename exactly once). -/
theorem ledger_roundtrip_amended (ledger : List String) (fn : String)
    (hstrip : pyStrip fn = fn) (hne : fn ≠ "")
    (_hnl : fn.data.contains (Char.ofNat 10) = false) :
    fn ∈ get_downloaded_files (mark_as_downloaded ledger fn) ∧
    get_downloaded_files (mark_as_downloaded (mark_as_downloaded ledger fn) fn) =
      get_downloaded_files (mark_as_downloaded ledger fn) := by
  constructor
  · unfold get_downloaded_files mark_as_downloaded
    rw [List.mem_toFinset, List.mem_filter]
    refine ⟨?_, by simpa using hne⟩
    rw [List.mem_map]
    exact ⟨fn, by simp, hstrip⟩
  · unfold get_downloaded_files mark_as_downloaded
    simp [List.filter_append, hstrip, hne, List.toFinset_append, Finset.union_assoc,
      Finset.union_self]

/-- Witness for C8's amended theorem at `"v.mp4"` over a one-line
ledger. -/
theorem ledger_roundtrip_amended_witness :
    ("v.mp4" : String) ∈ get_downloaded_files (mark_as_downloaded ["a.mp4"] ("v.mp4")) ∧
    get_downloaded_files
        (mark_as_downloaded (mark_as_downloaded ["a.mp4"] ("v.mp4")) ("v.mp4")) =
      get_downloaded_files (mark_as_downloaded ["a.mp4"] ("v.mp4")) :=
  ledger_roundtrip_amended ["a.mp4"] ("v.mp4") (by decide) (by decide) (by decide)

/-- C9: the size prober returns the declared content length exactly when
the HEAD request yields status 200 with a positive declared length; on
any other status, a missing or zero length, or a network error it returns
`none` — and being a total function of its environment it cannot raise
for routine absence of a size. -/
theorem head_probe_size (status : Nat) (contentLength : Option Nat) (n : Nat) :
    (status = 200 → contentLength = some n → 0 < n →
        get_expected_file_size (HeadEnv.response status contentLength) = some n) ∧
    (status ≠ 200 → get_expected_file_size (HeadEnv.response status contentLength) = none) ∧
    get_expected_file_size (HeadEnv.response status none) = none ∧
    get_expected_file_size (HeadEnv.response status (some 0)) = none ∧
    get_expected_file_size HeadEnv.netError = none := by
  refine ⟨?_, ?_, ?_, ?_, rfl⟩
  · intro h1 h2 h3
    subst h1; subst h2
    simp [get_expected_file_size, h3]
  · intro h
    simp [get_expected_file_size, h]
  · by_cases h : status = 200 <;> simp [get_expected_file_size, h]
  · by_cases h : status = 200 <;> simp [get_expected_file_size, h]

/-- Witness for C9: a 200 response declaring 42 bytes probes to `some 42`;
a 404 response declaring 42 bytes probes to `none`. -/
theorem head_probe_size_witness :
    get_expected_file_size (HeadEnv.response 200 (some 42)) = some 42 ∧
    get_expected_file_size (HeadEnv.response 404 (some 42)) = none :=
  ⟨(head_probe_size 200 (some 42) 42).1 rfl rfl (by omega),
    (head_probe_size 404 (some 42) 42).2.1 (by omega)⟩

/-- The pacing sleeps of the batch loop, counted over any list of group
start indices: one per index with `i + k < length`. -/
theorem gap_count_flatMap (urls : List String) (k : Nat) :
    ∀ l : List Nat,
      (l.flatMap (fun i => SchedAction.runBatch ((urls.drop i).take k) ::
          (if i + k < urls.length then [SchedAction.sleep RATE_LIMIT_DELAY] else []))).countP
        isSleepA = l.countP (fun i => decide (i + k < urls.length)) := by
  intro l
  induction l with
  | nil => rfl
  | cons a l ih =>
    by_cases hb : a + k < urls.length <;>
      simp [List.flatMap_cons, List.countP_append, List.countP_cons, isSleepA, hb, ih]

/-- `countP` after a `map`. -/
theorem countP_map_nat (p : Nat → Bool) (f : Nat → Nat) :
    ∀ l : List Nat, (l.map f).countP p = l.countP (fun a => p (f a)) := by
  intro l
  induction l with
  | nil => rfl
  | cons a l ih => simp [List.countP_cons, ih]

/-- `countP` only depends on the predicate's values on the list. -/
theorem countP_congr_nat (p q : Nat → Bool) :
    ∀ l : List Nat, (∀ a ∈ l, p a = q a) → l.countP p = l.countP q := by
  intro l
  induction l with
  | nil => intro _; rfl
  | cons a l ih =>
    intro h
    rw [List.countP_cons, List.countP_cons, h a (by simp),
      ih (fun x hx => h x (by simp [hx]))]

/-- Counting `i < m` over `range g` gives `min m g`. -/
theorem countP_range_lt (m : Nat) :
    ∀ g : Nat, (List.range g).countP (fun i => decide (i < m)) = min m g := by
  intro g
  induction g with
  | zero => simp
  | succ g ih =>
    rw [List.range_succ, List.countP_append, ih, List.countP_cons, List.countP_nil]
    by_cases h : g < m <;> simp [h] <;> omega

/-- C6 counterexample: for a work list of 5 URLs at concurrency limit 2
the batch loop sleeps the inter-group pacing delay exactly twice —
`ceil(5/2) - 1 = 2` gaps — not three times as the claim's lead sentence
asserts. -/
theorem five_urls_two_gaps_not_three :
    gapCount (download_videos_schedule 2 ["u1", "u2", "u3", "u4", "u5"]) = 2 ∧
    gapCount (download_videos_schedule 2 ["u1", "u2", "u3", "u4", "u5"]) ≠ 3 := by decide

/-- C6 as amended: with 5 new URLs and concurrency limit 2 the scheduler
runs the sequential groups `[u1,u2]`, `[u3,u4]`, `[u5]` — each of at most
2 concurrent transfers, each awaited before the next starts — sleeping
the pacing delay exactly between consecutive groups, i.e. exactly 2 gaps;
in general, for a positive limit `k` the number of pacing sleeps is
`ceil(length/k) - 1` (a sleep happens only when more groups remain after
the current one). -/
theorem scheduler_groups_and_gaps_amended :
    (∀ a b c d e : String,
        download_videos_schedule 2 [a, b, c, d, e] =
          [SchedAction.runBatch [a, b], SchedAction.sleep RATE_LIMIT_DELAY,
           SchedAction.runBatch [c, d], SchedAction.sleep RATE_LIMIT_DELAY,
           SchedAction.runBatch [e]]) ∧
    (∀ (urls : List String) (k : Nat), 0 < k →
        gapCount (download_videos_schedule k urls) = (urls.length + k - 1) / k - 1) := by
  constructor
  · intro a b c d e
    simp [download_videos_schedule, pyRange, List.flatMap, Function.comp, List.range_succ,
      RATE_LIMIT_DELAY]
  · intro urls k hk
    unfold gapCount download_videos_schedule
    rw [gap_count_flatMap urls k (pyRange 0 urls.length k)]
    unfold pyRange
    rw [countP_map_nat]
    simp only [Nat.sub_zero, Nat.zero_add]
    set n := urls.length with hn
    set g := (n + k - 1) / k with hg
    rcases Nat.eq_zero_or_pos n with hn0 | hn1
    · have hg0 : g = 0 := by
        rw [hg, hn0]
        exact Nat.div_eq_of_lt (by omega)
      rw [hg0]
      simp [List.range_zero, hg0]
    · have hg1 : 1 ≤ g := by
        rw [hg, Nat.one_le_div_iff hk]
        omega
      have hdm := Nat.div_add_mod (n + k - 1) k
      have hmod : (n + k - 1) % k < k := Nat.mod_lt _ hk
      rw [← hg] at hdm
      have h2 : (g - 1) * k + k = k * g := by
        calc (g - 1) * k + k = (g - 1 + 1) * k := (Nat.succ_mul _ _).symm
          _ = g * k := by rw [Nat.sub_add_cancel hg1]
          _ = k * g := Nat.mul_comm g k
      have hpoint : ∀ i, i < g → ((i * k + k < n) ↔ (i < g - 1)) := by
        intro i hi
        constructor
        · intro hlt
          by_contra hge
          have hieq : i = g - 1 := by omega
          subst hieq
          omega
        · intro hlt
          have h3 : (i + 1) * k ≤ (g - 1) * k := Nat.mul_le_mul_right k (by omega)
          have h4 : (i + 1) * k = i * k + k := Nat.succ_mul i k
          omega
      have hcg : (List.range g).countP (fun i => decide (i * k + k < n)) =
          (List.range g).countP (fun i => decide (i < g - 1)) := by
        apply countP_congr_nat
        intro i hi
        rw [decide_eq_decide]
        exact hpoint i (List.mem_range.mp hi)
      rw [hcg, countP_range_lt]
      omega

/-- Witness for C6's amended theorem: three URLs at limit 2 give one
pacing gap, `ceil(3/2) - 1 = 1`. -/
theorem scheduler_groups_and_gaps_amended_witness :
    gapCount (download_videos_schedule 2 ["a", "b", "c"]) = 1 := by
  have h := scheduler_groups_and_gaps_amended.2 ["a", "b", "c"] 2 (by omega)
  simpa using h
